import Mathlib

/-!
Verification of the credential-resolution and request-authorization flow of
`airflow/contrib/hooks/gcp_api_base_hook.py` (class `GoogleCloudBaseHook`).

The Python code is shallowly embedded: connection "extras" are an association
list of string keys to string values, `_get_field` is a lookup under the
`extra__google_cloud_platform__` prefix, and Python truthiness of a fetched
field (absent / `None` / `False` / empty string are all falsy) is the
`truthy` predicate on `Option String`.  The external collaborators
(`json.loads`, `httplib2`, the google credential constructors) are modelled
by executable Lean functions: a JSON parser faithful to the subset relevant
here, a small heap of header dictionaries for the mutating request wrapper,
and an inductive `Creds` datatype recording which constructor the code
invoked with which arguments.
-/

namespace GcpBaseHook

/-! ### Python string primitives -/

/-- Characters `str.strip()` removes (Python whitespace). -/
def isPySpace (c : Char) : Bool :=
  c = ' ' || c = '\t' || c = '\n' || c = '\r' || c = '\x0b' || c = '\x0c'

/-- Python `s.strip()`. -/
def pyStrip (l : List Char) : List Char :=
  ((l.dropWhile isPySpace).reverse.dropWhile isPySpace).reverse

/-- Python `s.split(',')`: splits on every comma, keeping empty pieces. -/
def splitOnComma : List Char → List (List Char)
  | [] => [[]]
  | c :: rest =>
    let r := splitOnComma rest
    if c = ',' then [] :: r else (c :: r.headD []) :: r.tail

/-- Python `s.endswith(suffix)`. -/
def pyEndswith (s t : String) : Bool :=
  t.data.reverse.isPrefixOf s.data.reverse

/-- Python `s.replace('\\n', '\n')`: left-to-right, non-overlapping
replacement of the two-character sequence backslash-`n` by a newline. -/
def replaceBsn : List Char → List Char
  | '\\' :: 'n' :: rest => '\n' :: replaceBsn rest
  | c :: rest => c :: replaceBsn rest
  | [] => []

/-- Number of (left-to-right, non-overlapping) occurrences of the
two-character sequence backslash-`n`. -/
def countBsn : List Char → Nat
  | '\\' :: 'n' :: rest => countBsn rest + 1
  | _ :: rest => countBsn rest
  | [] => 0

/-- Does the list contain the two-character sequence backslash-`n`? -/
def hasBsn : List Char → Bool
  | '\\' :: 'n' :: _ => true
  | _ :: rest => hasBsn rest
  | [] => false

/-! ### Model of `json.loads`

A fuel-indexed recursive-descent parser producing Python-dict-like objects
(duplicate keys collapse, last value wins, first position kept).  It models
the external `json` collaborator on the subset relevant to service-account
key data; `\u` escapes are out of scope of the model. -/

inductive JVal : Type where
  | jnull : JVal
  | jbool : Bool → JVal
  | jnum : String → JVal
  | jstr : String → JVal
  | jarr : List JVal → JVal
  | jobj : List (String × JVal) → JVal

/-- Python dict lookup on the assoc-list representation. -/
def objLookup (k : String) : List (String × JVal) → Option JVal
  | [] => none
  | (k', v) :: rest => if k' = k then some v else objLookup k rest

/-- Python dict assignment `d[k] = v`: replaces in place, else appends. -/
def insertKV (k : String) (v : JVal) : List (String × JVal) → List (String × JVal)
  | [] => [(k, v)]
  | (k', v') :: rest => if k' = k then (k, v) :: rest else (k', v') :: insertKV k v rest

/-- Skip JSON whitespace. -/
def skipWs : List Char → List Char
  | c :: rest => if c = ' ' || c = '\t' || c = '\n' || c = '\r' then skipWs rest else c :: rest
  | [] => []

/-- Decode a single-character JSON escape. -/
def escChar (e : Char) : Option Char :=
  if e = '"' then some '"'
  else if e = '\\' then some '\\'
  else if e = '/' then some '/'
  else if e = 'n' then some '\n'
  else if e = 't' then some '\t'
  else if e = 'r' then some '\r'
  else if e = 'b' then some '\x08'
  else if e = 'f' then some '\x0c'
  else none

/-- Parse the body of a JSON string after the opening quote; returns the
decoded characters and the input after the closing quote. -/
def parseStrBody : Nat → List Char → Option (List Char × List Char)
  | 0, _ => none
  | _ + 1, [] => none
  | fuel + 1, c :: rest =>
    if c = '"' then some ([], rest)
    else if c = '\\' then
      match rest with
      | [] => none
      | e :: rest2 =>
        match escChar e with
        | none => none
        | some d =>
          match parseStrBody fuel rest2 with
          | none => none
          | some (s, r) => some (d :: s, r)
    else
      match parseStrBody fuel rest with
      | none => none
      | some (s, r) => some (c :: s, r)

/-- Consume an expected literal tail (of `true` / `false` / `null`). -/
def parseLit (lit : List Char) (l : List Char) : Option (List Char) :=
  if lit.isPrefixOf l then some (l.drop lit.length) else none

/-- Characters that may appear in a JSON number. -/
def isNumChar (c : Char) : Bool :=
  c.isDigit || c = '-' || c = '+' || c = '.' || c = 'e' || c = 'E'

mutual

/-- Parse one JSON value; returns it with the remaining input. -/
def parseVal : Nat → List Char → Option (JVal × List Char)
  | 0, _ => none
  | fuel + 1, l =>
    match skipWs l with
    | [] => none
    | c :: rest =>
      if c = '{' then
        match skipWs rest with
        | '}' :: r2 => some (.jobj [], r2)
        | l2 =>
          match parseMembers fuel l2 [] with
          | some (kvs, r2) => some (.jobj kvs, r2)
          | none => none
      else if c = '[' then
        match skipWs rest with
        | ']' :: r2 => some (.jarr [], r2)
        | l2 =>
          match parseElems fuel l2 [] with
          | some (xs, r2) => some (.jarr xs, r2)
          | none => none
      else if c = '"' then
        match parseStrBody (rest.length + 1) rest with
        | some (s, r2) => some (.jstr (String.mk s), r2)
        | none => none
      else if c = 't' then
        match parseLit ['r', 'u', 'e'] rest with
        | some r2 => some (.jbool true, r2)
        | none => none
      else if c = 'f' then
        match parseLit ['a', 'l', 's', 'e'] rest with
        | some r2 => some (.jbool false, r2)
        | none => none
      else if c = 'n' then
        match parseLit ['u', 'l', 'l'] rest with
        | some r2 => some (.jnull, r2)
        | none => none
      else if c.isDigit || c = '-' then
        some (.jnum (String.mk ((c :: rest).takeWhile isNumChar)),
              (c :: rest).dropWhile isNumChar)
      else none

/-- Parse the members of a JSON object after `{` (at least one member). -/
def parseMembers : Nat → List Char → List (String × JVal) →
    Option (List (String × JVal) × List Char)
  | 0, _, _ => none
  | fuel + 1, l, acc =>
    match skipWs l with
    | '"' :: rest =>
      match parseStrBody (rest.length + 1) rest with
      | none => none
      | some (key, r2) =>
        match skipWs r2 with
        | ':' :: r3 =>
          match parseVal fuel r3 with
          | none => none
          | some (v, r4) =>
            match skipWs r4 with
            | ',' :: r5 => parseMembers fuel r5 (insertKV (String.mk key) v acc)
            | '}' :: r5 => some (insertKV (String.mk key) v acc, r5)
            | _ => none
        | _ => none
    | _ => none

/-- Parse the elements of a JSON array after `[` (at least one element). -/
def parseElems : Nat → List Char → List JVal → Option (List JVal × List Char)
  | 0, _, _ => none
  | fuel + 1, l, acc =>
    match parseVal fuel l with
    | none => none
    | some (v, r) =>
      match skipWs r with
      | ',' :: r2 => parseElems fuel r2 (acc ++ [v])
      | ']' :: r2 => some (acc ++ [v], r2)
      | _ => none

end

/-- Model of `json.loads`: parse one value, allow trailing whitespace only;
`none` models `json.decoder.JSONDecodeError`. -/
def jsonLoads (s : String) : Option JVal :=
  match parseVal (s.length + 1) s.data with
  | some (v, rest) => if skipWs rest = [] then some v else none
  | none => none

/-! ### The hook's data model -/

/-- The connection configuration a `GoogleCloudBaseHook` reads: the
connection's `extra_dejson` mapping (string keys to string values) and the
constructor argument `delegate_to`. -/
structure Hook : Type where
  extras : List (String × String)
  delegate_to : Option String

/-- First-match lookup in the extras mapping (Python dict access). -/
def lookupStr (k : String) : List (String × String) → Option String
  | [] => none
  | (k', v) :: rest => if k' = k then some v else lookupStr k rest

/-- Remove a key from the extras mapping. -/
def eraseKey (k : String) : List (String × String) → List (String × String)
  | [] => []
  | (k', v) :: rest => if k' = k then eraseKey k rest else (k', v) :: eraseKey k rest

/-- Set (`some v`) or remove (`none`) a raw extras key. -/
def setExtra (h : Hook) (k : String) (v : Option String) : Hook :=
  { h with extras := match v with
      | none => eraseKey k h.extras
      | some s => eraseKey k h.extras ++ [(k, s)] }

/-- `_get_field(f, default)`: looks up `extra__google_cloud_platform__<f>`;
`none` stands for the absent case (the Python defaults `False` and `None`,
both falsy). -/
def _get_field (h : Hook) (f : String) : Option String :=
  lookupStr ("extra__google_cloud_platform__" ++ f) h.extras

/-- Python truthiness of a fetched field: absent (`False`/`None`) and the
empty string are falsy. -/
def truthy : Option String → Bool
  | none => false
  | some s => !(s == "")

/-- The `project_id` property: `_get_field('project')`. -/
def project_id (h : Hook) : Option String :=
  _get_field h "project"

/-- `_DEFAULT_SCOPES`. -/
def _DEFAULT_SCOPES : List String :=
  ["https://www.googleapis.com/auth/cloud-platform"]

/-- Scope list: `[s.strip() for s in scope.split(',')]`. -/
def pySplitStrip (s : String) : List String :=
  (splitOnComma s.data).map (fun l => String.mk (pyStrip l))

/-- The scope list `_get_credentials` derives from the extras. -/
def scopesOf (h : Hook) : List String :=
  let scope := _get_field h "scope"
  if truthy scope then pySplitStrip (scope.getD "") else _DEFAULT_SCOPES

/-- Outcome of a credential construction: which external constructor the
code invoked, with which arguments. -/
inductive Creds : Type where
  | creds_default : List String → Creds
  | from_service_account_file : String → List String → Creds
  | from_service_account_info : List (String × JVal) → List String → Creds
  | with_subject : Creds → String → Creds

/-- Errors the embedded code can raise.  `AirflowException` carries the
message from the source; `KeyError` / `AttributeError` / `TypeError` model
the corresponding untyped Python exceptions escaping `_get_credentials`. -/
inductive PyErr : Type where
  | AirflowException : String → PyErr
  | KeyError : String → PyErr
  | AttributeError : PyErr
  | TypeError : PyErr
deriving DecidableEq

/-- The spec's `UnsupportedKeyFormat` error. -/
def UnsupportedKeyFormat : PyErr :=
  .AirflowException "Legacy P12 key file are not supported, use a JSON key file."

/-- The spec's `UnrecognizedKeyFileExtension` error. -/
def UnrecognizedKeyFileExtension : PyErr :=
  .AirflowException "Unrecognised extension for key file."

/-- The spec's `InvalidKeyJson` error. -/
def InvalidKeyJson : PyErr :=
  .AirflowException "Invalid key JSON."

/-- The spec's `PositionalArgumentRejected` error. -/
def PositionalArgumentRejected : PyErr :=
  .AirflowException "Use keyword arguments when initializing method with the 'fallback_to_default_project_id' decorator"

/-- The spec's `MissingProjectId` error. -/
def MissingProjectId : PyErr :=
  .AirflowException "The project id must be passed either as keyword project_id parameter or as project_id extra in GCP connection definition. Both are not set!"

/-- The final `return credentials.with_subject(self.delegate_to) if
self.delegate_to else credentials` of `_get_credentials`. -/
def applyDelegate (h : Hook) (c : Creds) : Creds :=
  if truthy h.delegate_to then .with_subject c (h.delegate_to.getD "") else c

/-- Shallow embedding of `GoogleCloudBaseHook._get_credentials`
(the spec's `resolveCredentials()`). -/
def _get_credentials (h : Hook) : Except PyErr Creds :=
  let key_path := _get_field h "key_path"
  let keyfile_dict := _get_field h "keyfile_dict"
  let scopes := scopesOf h
  let res : Except PyErr Creds :=
    if !truthy key_path && !truthy keyfile_dict then
      .ok (.creds_default scopes)
    else if truthy key_path then
      let p := key_path.getD ""
      if pyEndswith p ".json" then
        .ok (.from_service_account_file p scopes)
      else if pyEndswith p ".p12" then
        .error UnsupportedKeyFormat
      else
        .error UnrecognizedKeyFileExtension
    else
      match jsonLoads (keyfile_dict.getD "") with
      | none => .error InvalidKeyJson
      | some (.jobj kvs) =>
        match objLookup "private_key" kvs with
        | some (.jstr pv) =>
          .ok (.from_service_account_info
                (insertKV "private_key" (.jstr (String.mk (replaceBsn pv.data))) kvs)
                scopes)
        | some _ => .error .AttributeError
        | none => .error (.KeyError "private_key")
      | some _ => .error .TypeError
  match res with
  | .error e => .error e
  | .ok c => .ok (applyDelegate h c)

/-! ### Project-id fallback -/

/-- `_get_project_id`: `project_id if project_id else self.project_id`. -/
def _get_project_id (h : Hook) (pid : Option String) : Option String :=
  if truthy pid then pid else project_id h

/-- Shallow embedding of the `fallback_to_default_project_id` wrapper.
`nargs` is the number of positional arguments; `kw` is `none` when
`project_id` is not among the keyword arguments, and `some v` when it is
passed with Python value `v` (where `v = none` is Python `None`).  On
success it returns the `project_id` value handed to the wrapped function. -/
def fallback_to_default_project_id (h : Hook) (nargs : Nat)
    (kw : Option (Option String)) : Except PyErr (Option String) :=
  if nargs > 0 then
    .error PositionalArgumentRejected
  else
    let pid := match kw with
      | some v => _get_project_id h v
      | none => _get_project_id h none
    if !truthy pid then .error MissingProjectId else .ok pid

/-! ### Transient credential file export -/

/-- Outcome of `provide_gcp_credential_file` around the wrapped call:
the value of `GOOGLE_APPLICATION_CREDENTIALS` while the wrapped function
runs (`envVar`), the exception raised instead of calling it (`raised`),
whether the wrapped function was invoked, and the contents written to the
fresh temporary file, when one was used. -/
structure CredFileResult : Type where
  envVar : Option String
  raised : Option PyErr
  funcInvoked : Bool
  tempContents : Option String
deriving DecidableEq

/-- Shallow embedding of `_Decorators.provide_gcp_credential_file`.
`env0` is the prior value of `GOOGLE_APPLICATION_CREDENTIALS`; `tmpName`
the name of the freshly created temporary file. -/
def provide_gcp_credential_file (h : Hook) (env0 : Option String)
    (tmpName : String) : CredFileResult :=
  let key_path := _get_field h "key_path"
  let keyfile_dict := _get_field h "keyfile_dict"
  if truthy key_path then
    if pyEndswith (key_path.getD "") ".p12" then
      ⟨env0, some UnsupportedKeyFormat, false, none⟩
    else
      ⟨some (key_path.getD ""), none, true, none⟩
  else if truthy keyfile_dict then
    ⟨some tmpName, none, true, some (keyfile_dict.getD "")⟩
  else
    ⟨env0, none, true, none⟩

/-! ### User-agent decoration (`_set_user_agent`)

The wrapped `new_request` mutates Python dicts, so headers are modelled
through a small heap of dictionaries addressed by allocation index. -/

/-- A Python headers dict, as an assoc list in insertion order. -/
abbrev Headers := List (String × String)

/-- Python dict lookup on headers. -/
def dictGet (d : Headers) (k : String) : Option String :=
  match d with
  | [] => none
  | (k', v) :: rest => if k' = k then some v else dictGet rest k

/-- Python dict assignment `d[k] = v` on headers: overwrite in place
(keeping the original position), else append. -/
def dictSet (d : Headers) (k : String) (v : String) : Headers :=
  match d with
  | [] => [(k, v)]
  | (k', v') :: rest => if k' = k then (k, v) :: rest else (k', v') :: dictSet rest k v

/-- Number of entries of a headers dict with the given key. -/
def countKey (d : Headers) (k : String) : Nat :=
  (d.filter (fun p => p.1 = k)).length

/-- A heap of header dicts; a reference is an index into `dicts`. -/
structure Heap : Type where
  dicts : List Headers

/-- Allocate a fresh dict, returning the new heap and the fresh reference. -/
def Heap.alloc (h : Heap) (d : Headers) : Heap × Nat :=
  (⟨h.dicts ++ [d]⟩, h.dicts.length)

/-- Read the dict a reference points to. -/
def Heap.read (h : Heap) (r : Nat) : Headers :=
  h.dicts.getD r []

/-- In-place dict assignment `heap[r][k] = v`. -/
def Heap.setItem (h : Heap) (r : Nat) (k v : String) : Heap :=
  ⟨h.dicts.set r (dictSet (h.dicts.getD r []) k v)⟩

/-- Shallow embedding of the `new_request` closure installed by
`_set_user_agent`: `headers` is the caller's dict reference (or Python
`None`); returns the heap after the call and the reference of the dict
passed on to the original `request`. -/
def new_request (user_agent : String) (heap : Heap) (headers : Option Nat) :
    Heap × Nat :=
  let s1 := heap.alloc []
  let s2 := match headers with
    | some r => s1.1.alloc (s1.1.read r)
    | none => s1
  let nh := s2.2
  let heap3 := match dictGet (s2.1.read nh) "user-agent" with
    | some v => s2.1.setItem nh "user-agent" (user_agent ++ " " ++ v)
    | none => s2.1.setItem nh "user-agent" user_agent
  (heap3, nh)

/-- The headers the original `request` receives when the client built by
`_authorize` (the spec's `authorizedClient()`, whose user-agent string is
`'airflow-' + version`) sends a request with the given caller headers. -/
def outgoingHeaders (version : String) (headers : Option Headers) : Headers :=
  match headers with
  | some d =>
    let r := new_request ("airflow-" ++ version) ⟨[d]⟩ (some 0)
    r.1.read r.2
  | none =>
    let r := new_request ("airflow-" ++ version) ⟨[]⟩ none
    r.1.read r.2

/-! ### Concrete connection configurations used as test fixtures -/

/-- A connection whose `key_path` extra is a `.json` file. -/
def hookC1 : Hook := ⟨[("extra__google_cloud_platform__key_path", "client.json")], none⟩

/-- A connection with only a `scope` extra. -/
def hookC2 : Hook := ⟨[("extra__google_cloud_platform__scope", " a , b ")], none⟩

/-- Inline key JSON whose `private_key` value contains the two-character
escape sequence backslash-`n` (the JSON text spells it `\\n`). -/
def kdC4 : String := "\x7b\"private_key\": \"line1\\\\nline2\", \"client_email\": \"a@b\"\x7d"

/-- The Python dict `json.loads` produces for `kdC4`. -/
def kvsC4 : List (String × JVal) :=
  [("private_key", .jstr "line1\\nline2"), ("client_email", .jstr "a@b")]

/-- A connection whose `keyfile_dict` extra is `kdC4`. -/
def hookC4 : Hook := ⟨[("extra__google_cloud_platform__keyfile_dict", kdC4)], none⟩

/-- A connection whose `keyfile_dict` extra is not valid JSON. -/
def hookC5 : Hook := ⟨[("extra__google_cloud_platform__keyfile_dict", "not json")], none⟩

/-- A connection with a default `project` extra. -/
def hookC6 : Hook := ⟨[("extra__google_cloud_platform__project", "proj-1")], none⟩

/-- A connection whose `key_path` extra is a legacy `.p12` file. -/
def hookC8a : Hook := ⟨[("extra__google_cloud_platform__key_path", "legacy.p12")], none⟩

/-- A connection whose `key_path` extra is a `.json` file. -/
def hookC8b : Hook := ⟨[("extra__google_cloud_platform__key_path", "service.json")], none⟩

/-- A connection with only a `keyfile_dict` extra. -/
def hookC8c : Hook := ⟨[("extra__google_cloud_platform__keyfile_dict", "\x7b\"k\": 1\x7d")], none⟩

/-- A connection with a default `project` extra. -/
def hookC10 : Hook := ⟨[("extra__google_cloud_platform__project", "default-proj")], none⟩

/-- A connection whose `keyfile_dict` extra is valid JSON that lacks a
`private_key` member. -/
def hookC9 : Hook :=
  ⟨[("extra__google_cloud_platform__keyfile_dict", "\x7b\"client_email\": \"abc\"\x7d")], none⟩

/-! ### Helper lemmas -/

lemma truthy_some_of_ne (p : String) (hne : p ≠ "") : truthy (some p) = true := by
  simp [truthy, hne]

lemma pyEndswith_json_not_p12 (s : String) (h : pyEndswith s ".json" = true) :
    pyEndswith s ".p12" = false := by
  unfold pyEndswith at h ⊢
  rw [List.isPrefixOf_iff_prefix] at h
  by_contra hb
  rw [Bool.not_eq_false, List.isPrefixOf_iff_prefix] at hb
  have e1 : ".json".data.reverse = ['n', 'o', 's', 'j', '.'] := by decide
  have e2 : ".p12".data.reverse = ['2', '1', 'p', '.'] := by decide
  rw [e1] at h
  rw [e2] at hb
  rcases hl : s.data.reverse with _ | ⟨c, cs⟩
  · rw [hl] at h
    simp at h
  · rw [hl] at h hb
    rw [List.cons_prefix_cons] at h hb
    exact absurd (h.1.trans hb.1.symm) (by decide)

lemma replaceBsn_cons (c : Char) (rest : List Char)
    (h : ∀ r : List Char, c = '\\' → rest = 'n' :: r → False) :
    replaceBsn (c :: rest) = c :: replaceBsn rest := by
  rw [replaceBsn.eq_def]
  split
  · rename_i r heq
    simp only [List.cons.injEq] at heq
    exact (h r heq.1 heq.2).elim
  · rename_i c2 r2 hg heq
    simp only [List.cons.injEq] at heq
    rw [heq.1, heq.2]
  · rename_i heq
    simp at heq

lemma hasBsn_cons (c : Char) (rest : List Char)
    (h : ∀ r : List Char, c = '\\' → rest = 'n' :: r → False) :
    hasBsn (c :: rest) = hasBsn rest := by
  rw [hasBsn.eq_def]
  split
  · rename_i r heq
    simp only [List.cons.injEq] at heq
    exact (h r heq.1 heq.2).elim
  · rename_i c2 r2 hg heq
    simp only [List.cons.injEq] at heq
    rw [heq.2]
  · rename_i heq
    simp at heq

lemma countBsn_cons (c : Char) (rest : List Char)
    (h : ∀ r : List Char, c = '\\' → rest = 'n' :: r → False) :
    countBsn (c :: rest) = countBsn rest := by
  rw [countBsn.eq_def]
  split
  · rename_i r heq
    simp only [List.cons.injEq] at heq
    exact (h r heq.1 heq.2).elim
  · rename_i c2 r2 hg heq
    simp only [List.cons.injEq] at heq
    rw [heq.2]
  · rename_i heq
    simp at heq

lemma replaceBsn_head (l : List Char) (h : l.head? ≠ some 'n') :
    (replaceBsn l).head? ≠ some 'n' := by
  induction l using replaceBsn.induct with
  | case1 rest ih => simp [replaceBsn]
  | case2 c rest hne ih =>
    rw [replaceBsn_cons c rest hne]
    simpa using h
  | case3 => simp [replaceBsn]

lemma hasBsn_replaceBsn (l : List Char) : hasBsn (replaceBsn l) = false := by
  induction l using replaceBsn.induct with
  | case1 rest ih =>
    rw [replaceBsn.eq_def]
    simp only []
    rw [hasBsn_cons '\n' (replaceBsn rest) (by intro r hc _; exact absurd hc (by decide))]
    exact ih
  | case2 c rest hne ih =>
    rw [replaceBsn_cons c rest hne]
    rw [hasBsn_cons c (replaceBsn rest)]
    · exact ih
    · intro r hc hr
      rcases rest with _ | ⟨c2, rest2⟩
      · simp [replaceBsn] at hr
      · have hh : (replaceBsn (c2 :: rest2)).head? ≠ some 'n' := by
          apply replaceBsn_head
          simp only [List.head?_cons, ne_eq, Option.some.injEq]
          intro he
          exact hne rest2 hc (by rw [he])
        rw [hr] at hh
        simp at hh
  | case3 => simp [replaceBsn, hasBsn]

lemma count_replaceBsn (l : List Char) :
    (replaceBsn l).count '\n' = l.count '\n' + countBsn l := by
  induction l using replaceBsn.induct with
  | case1 rest ih =>
    rw [replaceBsn.eq_def]
    simp only []
    rw [countBsn.eq_def]
    simp only [List.count_cons, ih]
    simp
    ring
  | case2 c rest hne ih =>
    rw [replaceBsn_cons c rest hne, countBsn_cons c rest hne]
    simp only [List.count_cons, ih]
    ring
  | case3 => simp [replaceBsn, countBsn]

lemma mem_replaceBsn_of_hasBsn (l : List Char) (h : hasBsn l = true) :
    '\n' ∈ replaceBsn l := by
  have h1 : 1 ≤ countBsn l := by
    induction l using countBsn.induct with
    | case1 rest ih => rw [countBsn.eq_def]; simp
    | case2 c rest hne ih =>
      rw [countBsn_cons c rest hne]
      rw [hasBsn_cons c rest hne] at h
      exact ih h
    | case3 => simp [hasBsn] at h
  have h2 := count_replaceBsn l
  exact List.count_pos_iff.mp (by omega)

lemma lookupStr_append (k : String) (l1 l2 : List (String × String)) :
    lookupStr k (l1 ++ l2) =
      (match lookupStr k l1 with
       | some v => some v
       | none => lookupStr k l2) := by
  induction l1 with
  | nil => simp [lookupStr]
  | cons p rest ih =>
    by_cases hp : p.1 = k
    · simp [lookupStr, hp]
    · simp [lookupStr, hp, ih]

lemma lookupStr_eraseKey_self (k : String) (l : List (String × String)) :
    lookupStr k (eraseKey k l) = none := by
  induction l with
  | nil => simp [eraseKey, lookupStr]
  | cons p rest ih =>
    by_cases hp : p.1 = k
    · simp [eraseKey, hp, ih]
    · simp [eraseKey, lookupStr, hp, ih]

lemma lookupStr_eraseKey_ne (k k' : String) (hne : k ≠ k') (l : List (String × String)) :
    lookupStr k (eraseKey k' l) = lookupStr k l := by
  induction l with
  | nil => simp [eraseKey, lookupStr]
  | cons p rest ih =>
    by_cases hp : p.1 = k'
    · simp [eraseKey, lookupStr, hp, Ne.symm hne, ih]
    · by_cases hk : p.1 = k
      · simp [eraseKey, lookupStr, hp, hk, hne, ih]
      · simp [eraseKey, lookupStr, hp, hk, ih]

lemma get_field_setExtra (h : Hook) (k : String) (v : Option String) (f : String) :
    _get_field (setExtra h k v) f =
      if "extra__google_cloud_platform__" ++ f = k then v else _get_field h f := by
  unfold _get_field setExtra
  by_cases hk : "extra__google_cloud_platform__" ++ f = k
  · cases v with
    | none => simp [hk, lookupStr_eraseKey_self]
    | some s =>
      simp only [if_pos hk]
      rw [hk, lookupStr_append]
      rw [lookupStr_eraseKey_self]
      simp [lookupStr]
  · cases v with
    | none => simp only [if_neg hk, lookupStr_eraseKey_ne _ _ hk]
    | some s =>
      simp only [if_neg hk]
      rw [lookupStr_append, lookupStr_eraseKey_ne _ _ hk]
      cases hl : lookupStr ("extra__google_cloud_platform__" ++ f) h.extras with
      | none => simp [lookupStr, Ne.symm hk]
      | some w => simp

lemma get_credentials_of_key_path (h : Hook) (p : String)
    (hp : _get_field h "key_path" = some p) (hne : p ≠ "") :
    _get_credentials h =
      if pyEndswith p ".json" then
        .ok (applyDelegate h (.from_service_account_file p (scopesOf h)))
      else if pyEndswith p ".p12" then .error UnsupportedKeyFormat
      else .error UnrecognizedKeyFileExtension := by
  simp only [_get_credentials]
  rw [hp, truthy_some_of_ne p hne]
  simp only [Bool.not_true, Bool.false_and, Bool.false_eq_true, if_false, if_true,
    Option.getD_some]
  by_cases hj : pyEndswith p ".json" = true
  · simp [hj]
  · by_cases h12 : pyEndswith p ".p12" = true
    · simp [hj, h12]
    · simp [hj, h12]

lemma get_credentials_default_branch (h : Hook)
    (h1 : truthy (_get_field h "key_path") = false)
    (h2 : truthy (_get_field h "keyfile_dict") = false) :
    _get_credentials h = .ok (applyDelegate h (.creds_default (scopesOf h))) := by
  simp only [_get_credentials]
  rw [h1, h2]
  simp

lemma get_credentials_keyfile_branch (h : Hook) (kd : String)
    (h1 : truthy (_get_field h "key_path") = false)
    (h2 : _get_field h "keyfile_dict" = some kd) (h3 : kd ≠ "") :
    _get_credentials h =
      (match jsonLoads kd with
       | none => .error InvalidKeyJson
       | some (.jobj kvs) =>
         match objLookup "private_key" kvs with
         | some (.jstr pv) =>
           (.ok (applyDelegate h (.from_service_account_info
             (insertKV "private_key" (.jstr (String.mk (replaceBsn pv.data))) kvs)
             (scopesOf h))))
         | some _ => .error .AttributeError
         | none => .error (.KeyError "private_key")
       | some _ => .error .TypeError) := by
  simp only [_get_credentials]
  rw [h1, h2, truthy_some_of_ne kd h3]
  simp only [Bool.not_false, Bool.not_true, Bool.true_and, Bool.and_false,
    Bool.false_eq_true, if_false, Option.getD_some]
  cases hjl : jsonLoads kd with
  | none => simp
  | some v =>
    cases v with
    | jobj kvs =>
      cases hlk : objLookup "private_key" kvs with
      | none => simp [hlk]
      | some pv =>
        cases pv <;> simp [hlk]
    | jnull => simp
    | jbool b => simp
    | jnum s => simp
    | jstr s => simp
    | jarr xs => simp

lemma scopesOf_some (h : Hook) (s : String) (hs : _get_field h "scope" = some s)
    (hne : s ≠ "") : scopesOf h = pySplitStrip s := by
  simp [scopesOf, hs, truthy_some_of_ne s hne]

lemma scopesOf_none (h : Hook) (hs : _get_field h "scope" = none) :
    scopesOf h = _DEFAULT_SCOPES := by
  simp [scopesOf, hs, truthy]

lemma dictGet_dictSet_self (d : Headers) (k v : String) :
    dictGet (dictSet d k v) k = some v := by
  induction d with
  | nil => simp [dictGet, dictSet]
  | cons p rest ih =>
    by_cases hp : p.1 = k
    · simp [dictGet, dictSet, hp]
    · simp [dictGet, dictSet, hp, ih]

lemma dictSet_of_none (d : Headers) (k v : String) (h : dictGet d k = none) :
    dictSet d k v = d ++ [(k, v)] := by
  induction d with
  | nil => simp [dictSet]
  | cons p rest ih =>
    by_cases hp : p.1 = k
    · simp [dictGet, hp] at h
    · simp only [dictGet, hp, if_neg] at h
      simp [dictSet, hp, ih h]

lemma countKey_dictSet_of_some (d : Headers) (k v : String)
    (h : (dictGet d k).isSome = true) :
    countKey (dictSet d k v) k = countKey d k := by
  induction d with
  | nil => simp [dictGet] at h
  | cons p rest ih =>
    by_cases hp : p.1 = k
    · simp [dictSet, countKey, hp]
    · simp only [dictGet, hp, if_neg] at h
      simp only [dictSet, hp, if_neg]
      simp only [countKey, List.filter] at ih ⊢
      by_cases hk : p.1 = k
      · exact absurd hk hp
      · simp [hp, ih h]

lemma outgoingHeaders_some (v : String) (hs : Headers) :
    outgoingHeaders v (some hs) =
      (match dictGet hs "user-agent" with
       | some ua0 => dictSet hs "user-agent" ("airflow-" ++ v ++ " " ++ ua0)
       | none => dictSet hs "user-agent" ("airflow-" ++ v)) := by
  simp only [outgoingHeaders, new_request, Heap.alloc, Heap.read, Heap.setItem]
  cases hg : dictGet hs "user-agent" <;> simp [hg, List.getD]

lemma outgoingHeaders_none (v : String) :
    outgoingHeaders v none = [("user-agent", "airflow-" ++ v)] := by
  simp [outgoingHeaders, new_request, Heap.alloc, Heap.read, Heap.setItem, dictGet,
    dictSet, List.getD]

lemma getD_append_lt {α : Type} (l1 l2 : List α) (r : Nat) (d : α) (hr : r < l1.length) :
    (l1 ++ l2).getD r d = l1.getD r d := by
  induction l1 generalizing r with
  | nil => simp at hr
  | cons a rest ih =>
    cases r with
    | zero => simp
    | succ n =>
      simp only [List.cons_append, List.getD_cons_succ]
      exact ih n (by simpa using hr)

lemma getD_set_ne {α : Type} (l : List α) (i j : Nat) (x : α) (d : α) (hne : i ≠ j) :
    (l.set i x).getD j d = l.getD j d := by
  induction l generalizing i j with
  | nil => simp
  | cons a rest ih =>
    cases i with
    | zero =>
      cases j with
      | zero => exact absurd rfl hne
      | succ m => simp
    | succ n =>
      cases j with
      | zero => simp
      | succ m =>
        simp only [List.set_cons_succ, List.getD_cons_succ]
        exact ih n m (by omega)

lemma truthy_none_eq_false : truthy none = false := rfl

lemma new_request_frame (ua : String) (heap : Heap) (r : Nat)
    (hr : r < heap.dicts.length) :
    (new_request ua heap (some r)).1.read r = heap.read r
    ∧ (new_request ua heap (some r)).2 ≠ r := by
  obtain ⟨dicts⟩ := heap
  simp only [new_request, Heap.alloc, Heap.read, Heap.setItem] at *
  constructor
  · cases hg : dictGet ((dicts ++ [[]] ++
        [(dicts ++ [[]]).getD r []]).getD (dicts ++ [[]]).length []) "user-agent" <;>
      · simp only [hg]
        rw [getD_set_ne _ _ _ _ _ (by simp; omega)]
        rw [getD_append_lt _ _ _ _ (by simp; omega)]
        rw [getD_append_lt _ _ _ _ (by omega)]
  · cases hg : dictGet ((dicts ++ [[]] ++
        [(dicts ++ [[]]).getD r []]).getD (dicts ++ [[]]).length []) "user-agent" <;>
      · simp only [hg, List.length_append, List.length_cons, List.length_nil]
        omega

/-! ### The claims -/

/-- C1: for every extras mapping whose `key_path` field is present (set to a
value that is Python-truthy, i.e. non-empty), `_get_credentials` decides by
the path's extension: a path ending in `.json` builds a service-account
credential from that file with the given scopes; a path ending in `.p12`
fails with `UnsupportedKeyFormat`; any other extension fails with
`UnrecognizedKeyFileExtension`; and the result is independent of the
`keyfile_dict` field (setting or removing it changes nothing), so
`keyfile_dict` is never consulted in this case. -/
theorem C1_key_path_extension_dispatch (h : Hook) (p : String)
    (hp : _get_field h "key_path" = some p) (hne : p ≠ "") :
    (pyEndswith p ".json" = true →
      _get_credentials h = .ok (applyDelegate h (.from_service_account_file p (scopesOf h))))
    ∧ (pyEndswith p ".p12" = true → _get_credentials h = .error UnsupportedKeyFormat)
    ∧ (pyEndswith p ".json" = false → pyEndswith p ".p12" = false →
      _get_credentials h = .error UnrecognizedKeyFileExtension)
    ∧ (∀ v : Option String,
      _get_credentials (setExtra h "extra__google_cloud_platform__keyfile_dict" v)
        = _get_credentials h) := by
  have hb := get_credentials_of_key_path h p hp hne
  refine ⟨?_, ?_, ?_, ?_⟩
  · intro hj
    rw [hb]
    simp [hj]
  · intro h12
    have hj : pyEndswith p ".json" = false := by
      by_contra hnj
      rw [Bool.not_eq_false] at hnj
      rw [pyEndswith_json_not_p12 p hnj] at h12
      exact absurd h12 (by simp)
    rw [hb]
    simp [hj, h12]
  · intro hj h12
    rw [hb]
    simp [hj, h12]
  · intro v
    have hp' : _get_field (setExtra h "extra__google_cloud_platform__keyfile_dict" v)
        "key_path" = some p := by
      rw [get_field_setExtra]
      rw [if_neg (by decide)]
      exact hp
    have hb' := get_credentials_of_key_path
      (setExtra h "extra__google_cloud_platform__keyfile_dict" v) p hp' hne
    have hscope : _get_field (setExtra h "extra__google_cloud_platform__keyfile_dict" v)
        "scope" = _get_field h "scope" := by
      rw [get_field_setExtra]
      exact if_neg (by decide)
    have hs : scopesOf (setExtra h "extra__google_cloud_platform__keyfile_dict" v)
        = scopesOf h := by
      unfold scopesOf
      rw [hscope]
    rw [hb', hb, hs]
    exact rfl

/-- C1 witness: at a connection whose `key_path` is `client.json`, the
hypotheses hold and the credential is built from the file. -/
theorem C1_witness :
    (_get_field hookC1 "key_path" = some "client.json" ∧ "client.json" ≠ ""
      ∧ pyEndswith "client.json" ".json" = true)
    ∧ _get_credentials hookC1 =
        .ok (applyDelegate hookC1 (.from_service_account_file "client.json" (scopesOf hookC1))) :=
  ⟨⟨rfl, by decide, by decide⟩,
   (C1_key_path_extension_dispatch hookC1 "client.json" rfl (by decide)).1 (by decide)⟩

/-- C2: for every extras mapping lacking both `key_path` and
`keyfile_dict`, `_get_credentials` obtains ambient default credentials with
the scope list derived from the extras; that scope list is the comma-split,
whitespace-trimmed value of the `scope` field when it is set (non-empty),
and the single default cloud-platform scope when `scope` is absent. -/
theorem C2_default_credentials (h : Hook)
    (h1 : _get_field h "key_path" = none) (h2 : _get_field h "keyfile_dict" = none) :
    _get_credentials h = .ok (applyDelegate h (.creds_default (scopesOf h)))
    ∧ (∀ s : String, s ≠ "" → _get_field h "scope" = some s → scopesOf h = pySplitStrip s)
    ∧ (_get_field h "scope" = none → scopesOf h = _DEFAULT_SCOPES) :=
  ⟨get_credentials_default_branch h (by rw [h1]; rfl) (by rw [h2]; rfl),
   fun s hs hsc => scopesOf_some h s hsc hs,
   fun hsc => scopesOf_none h hsc⟩

/-- C2 witness: a connection with no key material and `scope`
set to `" a , b "` yields default credentials with scopes `["a", "b"]`. -/
theorem C2_witness :
    (_get_field hookC2 "key_path" = none ∧ _get_field hookC2 "keyfile_dict" = none)
    ∧ _get_credentials hookC2 = .ok (applyDelegate hookC2 (.creds_default (scopesOf hookC2)))
    ∧ scopesOf hookC2 = ["a", "b"] := by
  refine ⟨⟨rfl, rfl⟩, (C2_default_credentials hookC2 rfl rfl).1, ?_⟩
  exact ((C2_default_credentials hookC2 rfl rfl).2.1 " a , b " (by decide) rfl).trans rfl

/-- C3 counterexample: the claim as stated is false on the code.  With a
caller header map containing the key spelled `User-Agent` (the spelling the
claim names) mapped to `custom/1.0`, the code's lowercase membership test
misses it: the outgoing map keeps the `User-Agent` entry unchanged and
gains a separate lowercase `user-agent` entry, and no header of the
outgoing request carries the merged value `airflow-1.0 custom/1.0`. -/
theorem C3_counterexample_capitalized_key :
    outgoingHeaders "1.0" (some [("User-Agent", "custom/1.0")]) =
      [("User-Agent", "custom/1.0"), ("user-agent", "airflow-1.0")]
    ∧ (∀ q ∈ outgoingHeaders "1.0" (some [("User-Agent", "custom/1.0")]),
        q.2 ≠ "airflow-1.0 custom/1.0") :=
  ⟨by rfl, by decide⟩

/-- C3 (amended): the user-agent merge keys on the exact lowercase spelling
`user-agent` the code checks.  If the caller's header map contains key
`user-agent` with value `custom/1.0` (as its only entry for that key), the
outgoing request carries a single `user-agent` header equal to
`airflow-<version> custom/1.0`; if the caller's map has no `user-agent`
key, or no headers are supplied at all, the outgoing request carries
`airflow-<version>` alone. -/
theorem C3_user_agent_merge (version : String) (hs : Headers)
    (h1 : dictGet hs "user-agent" = some "custom/1.0")
    (h2 : countKey hs "user-agent" = 1) :
    dictGet (outgoingHeaders version (some hs)) "user-agent"
        = some ("airflow-" ++ version ++ " custom/1.0")
    ∧ countKey (outgoingHeaders version (some hs)) "user-agent" = 1
    ∧ (∀ hs2 : Headers, dictGet hs2 "user-agent" = none →
        outgoingHeaders version (some hs2) = hs2 ++ [("user-agent", "airflow-" ++ version)])
    ∧ outgoingHeaders version none = [("user-agent", "airflow-" ++ version)] := by
  refine ⟨?_, ?_, ?_, outgoingHeaders_none version⟩
  · simp only [outgoingHeaders_some, h1]
    rw [dictGet_dictSet_self]
    rw [String.append_assoc]
    exact rfl
  · simp only [outgoingHeaders_some, h1]
    rw [countKey_dictSet_of_some _ _ _ (by rw [h1]; rfl)]
    exact h2
  · intro hs2 hg
    simp only [outgoingHeaders_some, hg]
    exact dictSet_of_none _ _ _ hg

/-- C3 witness: a caller map `user-agent: custom/1.0` under version `2.0`
produces the single merged header `airflow-2.0 custom/1.0`. -/
theorem C3_witness :
    (dictGet [("user-agent", "custom/1.0")] "user-agent" = some "custom/1.0"
      ∧ countKey [("user-agent", "custom/1.0")] "user-agent" = 1)
    ∧ dictGet (outgoingHeaders "2.0" (some [("user-agent", "custom/1.0")])) "user-agent"
        = some "airflow-2.0 custom/1.0" :=
  ⟨⟨rfl, rfl⟩, ((C3_user_agent_merge "2.0" [("user-agent", "custom/1.0")] rfl rfl).1).trans rfl⟩

/-- C4: for every extras mapping with no truthy `key_path` and a
`keyfile_dict` that parses to a JSON object whose `private_key` member is a
string containing the two-character sequence backslash-`n`,
`_get_credentials` builds the service-account credential from the parsed
mapping with that `private_key` rewritten by replacing every such sequence
with a literal newline: the result contains a newline, contains no
remaining backslash-`n` sequence, and gains exactly one newline per
replaced sequence. -/
theorem C4_escaped_newlines_normalized (h : Hook) (kd : String)
    (kvs : List (String × JVal)) (pv : String)
    (hkp : truthy (_get_field h "key_path") = false)
    (hkd : _get_field h "keyfile_dict" = some kd)
    (hparse : jsonLoads kd = some (.jobj kvs))
    (hpk : objLookup "private_key" kvs = some (.jstr pv))
    (hbsn : hasBsn pv.data = true) :
    _get_credentials h = .ok (applyDelegate h (.from_service_account_info
        (insertKV "private_key" (.jstr (String.mk (replaceBsn pv.data))) kvs)
        (scopesOf h)))
    ∧ '\n' ∈ replaceBsn pv.data
    ∧ hasBsn (replaceBsn pv.data) = false
    ∧ (replaceBsn pv.data).count '\n' = pv.data.count '\n' + countBsn pv.data := by
  have hne : kd ≠ "" := by
    intro e
    rw [e] at hparse
    rw [show jsonLoads "" = none from rfl] at hparse
    simp at hparse
  refine ⟨?_, mem_replaceBsn_of_hasBsn _ hbsn, hasBsn_replaceBsn _, count_replaceBsn _⟩
  rw [get_credentials_keyfile_branch h kd hkp hkd hne]
  simp only [hparse, hpk]

/-- C4 witness: the key JSON `kdC4` resolves to a credential whose
`private_key` is `line1`, newline, `line2`. -/
theorem C4_witness :
    (jsonLoads kdC4 = some (.jobj kvsC4)
      ∧ objLookup "private_key" kvsC4 = some (.jstr "line1\\nline2")
      ∧ hasBsn ("line1\\nline2" : String).data = true)
    ∧ _get_credentials hookC4 = .ok (.from_service_account_info
        [("private_key", .jstr "line1\nline2"), ("client_email", .jstr "a@b")]
        _DEFAULT_SCOPES)
    ∧ '\n' ∈ ("line1\nline2" : String).data := by
  have hc := C4_escaped_newlines_normalized hookC4 kdC4 kvsC4 "line1\\nline2"
    rfl rfl rfl rfl rfl
  exact ⟨⟨rfl, rfl, rfl⟩, hc.1.trans rfl, hc.2.1⟩

/-- C5: for every extras mapping with no `key_path` and a non-empty
`keyfile_dict` whose value fails to parse as JSON, `_get_credentials`
fails with `InvalidKeyJson`. -/
theorem C5_invalid_key_json (h : Hook) (kd : String)
    (h1 : _get_field h "key_path" = none)
    (h2 : _get_field h "keyfile_dict" = some kd)
    (h3 : kd ≠ "") (h4 : jsonLoads kd = none) :
    _get_credentials h = .error InvalidKeyJson := by
  rw [get_credentials_keyfile_branch h kd (by rw [h1]; rfl) h2 h3]
  simp only [h4]

/-- C5 witness: `keyfile_dict` equal to `not json` fails with
`InvalidKeyJson`. -/
theorem C5_witness :
    (_get_field hookC5 "key_path" = none
      ∧ _get_field hookC5 "keyfile_dict" = some "not json"
      ∧ "not json" ≠ "" ∧ jsonLoads "not json" = none)
    ∧ _get_credentials hookC5 = .error InvalidKeyJson :=
  ⟨⟨rfl, rfl, by decide, rfl⟩, C5_invalid_key_json hookC5 "not json" rfl rfl (by decide) rfl⟩

/-- C6: a `fallback_to_default_project_id`-decorated operation rejects any
positional argument with `PositionalArgumentRejected`; with the
`project_id` keyword absent or `None` it substitutes the connection's own
`project_id`; and it fails with `MissingProjectId` exactly when both the
explicit `project_id` argument and the connection's default project are
empty (falsy). -/
theorem C6_project_id_fallback (h : Hook) (nargs : Nat) (kw : Option (Option String)) :
    (0 < nargs →
      fallback_to_default_project_id h nargs kw = .error PositionalArgumentRejected)
    ∧ (nargs = 0 → (kw = none ∨ kw = some none) →
      fallback_to_default_project_id h nargs kw =
        if truthy (project_id h) then .ok (project_id h) else .error MissingProjectId)
    ∧ (nargs = 0 →
      (fallback_to_default_project_id h nargs kw = .error MissingProjectId ↔
        truthy (kw.getD none) = false ∧ truthy (project_id h) = false)) := by
  unfold fallback_to_default_project_id _get_project_id
  have hno : truthy (none : Option String) = false := rfl
  refine ⟨?_, ?_, ?_⟩
  · intro hn
    simp [hn]
  · intro h0 hkw
    subst h0
    rcases hkw with rfl | rfl <;>
      · by_cases ht : truthy (project_id h) = true <;> simp [ht, hno]
  · intro h0
    subst h0
    rcases kw with _ | v
    · by_cases ht : truthy (project_id h) = true <;> simp [ht, hno]
    · by_cases hv : truthy v = true
      · simp [hv]
      · by_cases ht : truthy (project_id h) = true <;> simp [hv, ht]

/-- C6 witness: a positional argument is rejected; with a configured
default project and no keyword the default is used; with neither, the
decorated call fails with `MissingProjectId`. -/
theorem C6_witness :
    (0 < 1 ∧ fallback_to_default_project_id hookC6 1 none = .error PositionalArgumentRejected)
    ∧ fallback_to_default_project_id hookC6 0 none = .ok (some "proj-1")
    ∧ (fallback_to_default_project_id (Hook.mk [] none) 0 none = .error MissingProjectId ↔
        truthy ((none : Option (Option String)).getD none) = false
          ∧ truthy (project_id (Hook.mk [] none)) = false) := by
  refine ⟨⟨by decide, (C6_project_id_fallback hookC6 1 none).1 (by decide)⟩, ?_,
    (C6_project_id_fallback (Hook.mk [] none) 0 none).2.2 rfl⟩
  exact ((C6_project_id_fallback hookC6 0 none).2.1 rfl (Or.inl rfl)).trans rfl

/-- C7: the `new_request` decoration never mutates the caller's header map:
after a request with a caller-supplied header dict, the caller's dict is
unchanged on the heap, and the dict handed to the original `request` is a
different (freshly copied) dict. -/
theorem C7_caller_headers_never_mutated (ua : String) (heap : Heap) (r : Nat)
    (hr : r < heap.dicts.length) :
    (new_request ua heap (some r)).1.read r = heap.read r
    ∧ (new_request ua heap (some r)).2 ≠ r :=
  new_request_frame ua heap r hr

/-- C7 witness: a concrete one-dict heap is left unchanged at the caller's
reference. -/
theorem C7_witness :
    0 < (Heap.mk [[("accept", "json")]]).dicts.length
    ∧ ((new_request "airflow-2.0" ⟨[[("accept", "json")]]⟩ (some 0)).1.read 0
        = Heap.read ⟨[[("accept", "json")]]⟩ 0
      ∧ (new_request "airflow-2.0" ⟨[[("accept", "json")]]⟩ (some 0)).2 ≠ 0) :=
  ⟨by decide, C7_caller_headers_never_mutated "airflow-2.0" ⟨[[("accept", "json")]]⟩ 0 (by decide)⟩

/-- C8: `provide_gcp_credential_file` fails with `UnsupportedKeyFormat` on
a `.p12` `key_path`, leaving `GOOGLE_APPLICATION_CREDENTIALS` unchanged and
not invoking the wrapped operation; otherwise it sets the variable to
`key_path` directly when `key_path` is set, or to the freshly created
temporary file containing `keyfile_dict`'s raw contents when only
`keyfile_dict` is set. -/
theorem C8_credential_file_export (h : Hook) (env0 : Option String) (tmp : String) :
    (∀ p : String, _get_field h "key_path" = some p → p ≠ "" →
      pyEndswith p ".p12" = true →
      provide_gcp_credential_file h env0 tmp =
        ⟨env0, some UnsupportedKeyFormat, false, none⟩)
    ∧ (∀ p : String, _get_field h "key_path" = some p → p ≠ "" →
      pyEndswith p ".p12" = false →
      provide_gcp_credential_file h env0 tmp = ⟨some p, none, true, none⟩)
    ∧ (∀ kd : String, truthy (_get_field h "key_path") = false →
      _get_field h "keyfile_dict" = some kd → kd ≠ "" →
      provide_gcp_credential_file h env0 tmp = ⟨some tmp, none, true, some kd⟩) := by
  refine ⟨?_, ?_, ?_⟩
  · intro p hp hne h12
    simp only [provide_gcp_credential_file, hp, truthy_some_of_ne p hne,
      Option.getD_some]
    simp [h12]
  · intro p hp hne h12
    simp only [provide_gcp_credential_file, hp, truthy_some_of_ne p hne,
      Option.getD_some]
    simp [h12]
  · intro kd hkp hkd hne
    simp only [provide_gcp_credential_file, hkp, hkd,
      truthy_some_of_ne kd hne, Option.getD_some]
    simp

/-- C8 witness: the three branches at concrete connections. -/
theorem C8_witness :
    provide_gcp_credential_file hookC8a none "tmpfile-1" =
      ⟨none, some UnsupportedKeyFormat, false, none⟩
    ∧ provide_gcp_credential_file hookC8b (some "prev") "tmpfile-1" =
      ⟨some "service.json", none, true, none⟩
    ∧ provide_gcp_credential_file hookC8c (some "prev") "tmpfile-1" =
      ⟨some "tmpfile-1", none, true, some "\x7b\"k\": 1\x7d"⟩ :=
  ⟨(C8_credential_file_export hookC8a none "tmpfile-1").1 "legacy.p12" rfl
    (by decide) (by decide),
   (C8_credential_file_export hookC8b (some "prev") "tmpfile-1").2.1 "service.json" rfl
    (by decide) (by decide),
   (C8_credential_file_export hookC8c (some "prev") "tmpfile-1").2.2 "\x7b\"k\": 1\x7d" rfl rfl
    (by decide)⟩

/-- C9: there is an extras mapping with no `key_path` and a `keyfile_dict`
that parses as valid JSON but whose top-level object lacks a `private_key`
member, on which `_get_credentials` fails with the untyped lookup error
`KeyError` rather than `InvalidKeyJson`: the `InvalidKeyJson` branch
catches only JSON parse failures. -/
theorem C9_missing_private_key_is_KeyError :
    _get_field hookC9 "key_path" = none
    ∧ jsonLoads "\x7b\"client_email\": \"abc\"\x7d" =
        some (.jobj [("client_email", .jstr "abc")])
    ∧ objLookup "private_key" [("client_email", .jstr "abc")] = none
    ∧ _get_credentials hookC9 = .error (.KeyError "private_key")
    ∧ PyErr.KeyError "private_key" ≠ InvalidKeyJson :=
  ⟨rfl, rfl, rfl, rfl, by decide⟩

/-- C10: a decorated call with `project_id` explicitly passed as the empty
string while the connection's default project is non-empty replaces the
empty string by the connection default and proceeds with it: the
substitution triggers on any falsy value, not only on absent or `None`. -/
theorem C10_empty_string_project_id_falls_back (h : Hook) (d : String)
    (hd : project_id h = some d) (hne : d ≠ "") :
    fallback_to_default_project_id h 0 (some (some "")) = .ok (some d) := by
  unfold fallback_to_default_project_id _get_project_id
  have he : truthy (some "") = false := rfl
  simp [he, hd, truthy_some_of_ne d hne]

/-- C10 witness: passing `project_id` as the empty string with default
project `default-proj` proceeds with the default. -/
theorem C10_witness :
    (project_id hookC10 = some "default-proj" ∧ "default-proj" ≠ "")
    ∧ fallback_to_default_project_id hookC10 0 (some (some "")) = .ok (some "default-proj") :=
  ⟨⟨rfl, by decide⟩,
   C10_empty_string_project_id_falls_back hookC10 "default-proj" rfl (by decide)⟩

end GcpBaseHook
